import Mathlib

/-!
Verification of the pkgdmp symbol extraction and filtering pipeline.

This file is a shallow embedding of the Go sources (filter.go, helpers.go,
entities.go, parse.go) of the pkgdmp package.  Pure Go functions become Lean
functions; Go panics and error returns are modelled with `Except String` (a
panic aborts the computation with an error value); lazily-evaluated method
calls on the `Symbol` interface whose evaluation can panic (for example
`Field.IsExported` indexing an empty `Names` slice) are modelled with
`Option`-valued fields of a symbol view, where `none` marks a panic.

External collaborators (the go/ast pretty-printer `printNodes`, the regexp
engine, and the go/doc synopsis engine) are modelled abstractly: printed type
expressions are carried as opaque strings, a compiled regular expression is an
arbitrary predicate on strings, and the synopsis function is modelled from the
specification of the external doc-summary engine.
-/

namespace Pkgdmp

/-- FilterAction from filter.go: Exclude / Include. -/
inductive FilterAction where
  | Exclude
  | Include
deriving DecidableEq, Repr

/-- SymbolType from filter.go: the closed enumeration of symbol kinds. -/
inductive SymbolType where
  | SymbolUnknown
  | SymbolPackage
  | SymbolConst
  | SymbolIdentType
  | SymbolFuncType
  | SymbolStructType
  | SymbolInterfaceType
  | SymbolMapType
  | SymbolChanType
  | SymbolArrayType
  | SymbolFunc
  | SymbolStructField
  | SymbolParamField
  | SymbolResultField
  | SymbolReceiverField
deriving DecidableEq, Repr

/-- unfilterableMap from filter.go: symbol types that filter functions should
always return true for (modelled as the list of its keys). -/
def unfilterableMap : List SymbolType :=
  [.SymbolPackage, .SymbolParamField, .SymbolResultField, .SymbolReceiverField]

/-- View of the Go `Symbol` interface: what the three methods return.
`ident?` and `isExported?` are `none` when the corresponding Go method call
panics (`Const.Ident` on an empty name list, `Field.IsExported` on an empty
name list, `isExportedIdent` on an empty string). -/
structure Symbol where
  ident? : Option String
  isExported? : Option Bool
  symbolType : SymbolType

/-- isUnfilterable from filter.go. -/
def isUnfilterable (s : Symbol) : Bool :=
  unfilterableMap.contains s.symbolType

/-- The four constructed symbol filters of filter.go.  A compiled regular
expression is modelled as an opaque match predicate on strings (the regexp
engine is an external collaborator); the set-valued configurations are
modelled as lists (Go uses hash sets; only membership is consulted). -/
inductive SymbolFilter where
  | filterUnexported (action : FilterAction)
  | filterSymbolTypes (action : FilterAction) (stSet : List SymbolType)
  | filterMatchingIdents (action : FilterAction) (pattern : String → Bool)
  | filterPackages (action : FilterAction) (pkgSet : List String)

/-- Include methods of the four filters from filter.go, in the evaluation
order of the Go code.  `none` marks a panic of a lazily evaluated `Symbol`
method (Go short-circuits `f.action == Include || s.IsExported()`, so
`isExported?` is only forced in the Exclude branch). -/
def SymbolFilter.Include : SymbolFilter → Symbol → Option Bool
  | .filterUnexported action, s =>
      if isUnfilterable s then some true
      else if action = .Include then some true
      else s.isExported?
  | .filterSymbolTypes action stSet, s =>
      if isUnfilterable s then some true
      else
        let ok := stSet.contains s.symbolType
        some (if action = .Include then ok else !ok)
  | .filterMatchingIdents action pattern, s =>
      if isUnfilterable s then some true
      else
        (s.ident?).map fun i =>
          let m := pattern i
          if action = .Include then m else !m
  | .filterPackages action pkgSet, s =>
      if s.symbolType ≠ .SymbolPackage then some true
      else
        (s.ident?).map fun i =>
          let ok := pkgSet.contains i
          if action = .Include then ok else !ok

/-- Parser.includeSymbol from parse.go: a symbol is included iff every filter
returns true, short-circuiting on the first false; `none` (a panic inside a
filter) propagates. -/
def includeSymbol (filters : List SymbolFilter) (s : Symbol) : Option Bool :=
  match filters with
  | [] => some true
  | f :: fs =>
      match f.Include s with
      | none => none
      | some false => some false
      | some true => includeSymbol fs s

/-- A filter produced by the filterPackages constructor. -/
def SymbolFilter.isPackagesFilter : SymbolFilter → Bool
  | .filterPackages _ _ => true
  | _ => false

/-- The three field symbol kinds that are unfilterable and are not the
package kind. -/
def isFieldUnfilterable (st : SymbolType) : Bool :=
  st = .SymbolParamField ∨ st = .SymbolResultField ∨ st = .SymbolReceiverField

lemma isUnfilterable_of_field (s : Symbol)
    (h : isFieldUnfilterable s.symbolType = true) : isUnfilterable s = true := by
  simp only [isFieldUnfilterable, decide_eq_true_eq] at h
  rcases h with h | h | h <;> simp [isUnfilterable, unfilterableMap, h]

lemma field_not_package (s : Symbol)
    (h : isFieldUnfilterable s.symbolType = true) :
    s.symbolType ≠ SymbolType.SymbolPackage := by
  simp only [isFieldUnfilterable, decide_eq_true_eq] at h
  rcases h with h | h | h <;> simp [h]

/-- Every constructed filter includes param, result, and receiver fields. -/
lemma include_field_unfilterable (f : SymbolFilter) (s : Symbol)
    (h : isFieldUnfilterable s.symbolType = true) : f.Include s = some true := by
  have hu := isUnfilterable_of_field s h
  have hne := field_not_package s h
  cases f with
  | filterUnexported action => simp [SymbolFilter.Include, hu]
  | filterSymbolTypes action stSet => simp [SymbolFilter.Include, hu]
  | filterMatchingIdents action pattern => simp [SymbolFilter.Include, hu]
  | filterPackages action pkgSet => simp [SymbolFilter.Include, hne]

lemma includeSymbol_field_unfilterable (filters : List SymbolFilter) (s : Symbol)
    (h : isFieldUnfilterable s.symbolType = true) :
    includeSymbol filters s = some true := by
  induction filters with
  | nil => rfl
  | cons f fs ih =>
      simp [includeSymbol, include_field_unfilterable f s h, ih]

lemma include_isSome (f : SymbolFilter) (s : Symbol)
    (hi : s.ident?.isSome) (he : s.isExported?.isSome) :
    (f.Include s).isSome := by
  cases f with
  | filterUnexported action =>
      simp only [SymbolFilter.Include]
      split
      · rfl
      · split
        · rfl
        · exact he
  | filterSymbolTypes action stSet =>
      simp only [SymbolFilter.Include]
      split <;> rfl
  | filterMatchingIdents action pattern =>
      simp only [SymbolFilter.Include]
      split
      · rfl
      · simpa using hi
  | filterPackages action pkgSet =>
      simp only [SymbolFilter.Include]
      split
      · rfl
      · simpa using hi

lemma includeSymbol_pair (f g : SymbolFilter) (s : Symbol) (a b : Bool)
    (hf : f.Include s = some a) (hg : g.Include s = some b) :
    includeSymbol [f, g] s = some (a && b) := by
  cases a with
  | false => simp [includeSymbol, hf]
  | true =>
      cases b with
      | false => simp [includeSymbol, hf, hg]
      | true => simp [includeSymbol, hf, hg]

/-- isExportedIdent from helpers.go: `strings.ToUpper(name[:1]) == name[:1]`.
Slicing an empty string panics in Go, modelled as `none`.  (Go operates on the
first byte; for ASCII identifiers this agrees with the first character, and
for a non-ASCII first byte both Go's ToUpper and this model leave it
unchanged, yielding true.) -/
def isExportedIdentOpt (name : String) : Option Bool :=
  match name.data with
  | [] => none
  | c :: _ => some (decide (c.toUpper = c))

/-- strings.TrimSpace, implemented structurally on the character list (Go
trims Unicode whitespace; the ASCII whitespace predicate suffices here). -/
def goTrimSpace (s : String) : String :=
  ⟨((s.data.dropWhile Char.isWhitespace).reverse.dropWhile Char.isWhitespace).reverse⟩

/-- strings.TrimPrefix, implemented structurally on the character lists. -/
def trimPrefixStr (s pfx : String) : String :=
  if pfx.data.isPrefixOf s.data then ⟨s.data.drop pfx.data.length⟩ else s

/-- Split a character list at every separator position (empty pieces kept),
the semantics of strings.Split with a one-character separator. -/
def splitCharsAux (p : Char → Bool) : List Char → List Char → List (List Char)
  | [], acc => [acc.reverse]
  | c :: rest, acc =>
      if p c then acc.reverse :: splitCharsAux p rest []
      else splitCharsAux p rest (c :: acc)

/-- strings.Split on the newline separator. -/
def goSplitLines (s : String) : List String :=
  (splitCharsAux (fun c => c = '\n') s.data []).map fun w => ⟨w⟩

/-- strings.Fields: the whitespace-separated words of a string. -/
def goFields (s : String) : List String :=
  ((splitCharsAux Char.isWhitespace s.data []).filter (fun w => w ≠ [])).map fun w => ⟨w⟩

/-- One step of the greedy word wrap of mkComment (helpers.go): the builder
content so far and the Go `lineLen` byte counter (fmt.Fprintf return values;
after a wrap the counter includes the newline and marker bytes). -/
def mkCommentWrapStep (acc : String × Nat) (word : String) : String × Nat :=
  let wLen := word.length
  if acc.2 + wLen + 1 < 80 then
    (acc.1 ++ word ++ " ", acc.2 + (wLen + 1))
  else
    (acc.1 ++ "\n// " ++ word ++ " ", wLen + 5)

/-- mkComment from helpers.go: doc text to `//` comment lines, with greedy
word wrap for single-line input. -/
def mkComment (s : String) : String :=
  let s := goTrimSpace s
  if s = "" then ""
  else
    let lines := goSplitLines s
    if lines.length > 1 then
      String.join (lines.map (fun line => "// " ++ line ++ "\n"))
    else
      (goFields s |>.foldl mkCommentWrapStep ("// ", 3)).1 ++ "\n"

/-- Modelled from the spec: the doc-summary engine (go/doc Package.Synopsis)
is an external collaborator; §4.5 specifies it as the first sentence ending
in a period, exclamation mark, or question mark followed by whitespace or end
of text (the recognized-abbreviation carve-out is not exercised here). -/
def firstSentence : List Char → List Char
  | [] => []
  | c :: rest =>
      if (c = '.' || c = '!' || c = '?') &&
          (match rest with | [] => true | r :: _ => r.isWhitespace) then
        [c]
      else
        c :: firstSentence rest

/-- Modelled from the spec: string wrapper of `firstSentence` (§4.5). -/
def synopsis (s : String) : String :=
  String.mk (firstSentence s.data)

/-- Parser from parse.go. -/
structure Parser where
  filters : List SymbolFilter := []
  fullDocs : Bool := false
  noDocs : Bool := false

/-- Parser.mkDoc from parse.go. -/
def Parser.mkDoc (p : Parser) (fullDoc : String) : String :=
  let fullDoc := goTrimSpace fullDoc
  if p.noDocs then ""
  else
    let fullDoc := trimPrefixStr (goTrimSpace fullDoc) "// "
    if p.fullDocs then fullDoc else synopsis fullDoc

/-- Field from entities.go (the Go field `Type` is `typ` here, since `Type`
is reserved in Lean). -/
structure Field where
  typ : String := ""
  Doc : String := ""
  Comment : String := ""
  Names : List String := []
  symbolType : SymbolType := .SymbolUnknown

/-- Value from entities.go (Go field `Type` is `typ`). -/
structure Value where
  Value : String := ""
  typ : String := ""
  Specific : Bool := false

/-- Token kinds of go/ast basic literals appearing as const values. -/
inductive LitKind where
  | INT
  | FLOAT
  | IMAG
  | CHAR
  | STRING

/-- typeNames from parse.go: the fixed token-to-type-name table. -/
def typeNames : LitKind → String
  | .INT => "int"
  | .FLOAT => "float64"
  | .IMAG => "complex128"
  | .CHAR => "rune"
  | .STRING => "string"

/-- A const value expression (the go/ast shapes inspected by
Parser.parseConst): a basic literal, a call expression (carrying the printed
text of the called function and its argument expressions), a bare identifier,
or any other shape (which makes the extractor panic). -/
inductive ConstExpr where
  | basicLit (kind : LitKind) (value : String)
  | callExpr (funText : String) (args : List ConstExpr)
  | identE (name : String)
  | otherE (desc : String)

/-- ast.ValueSpec as consumed by Parser.parseConst: names, values, and the
optional explicit type annotation (carried as its printed text). -/
structure ValueSpec where
  names : List String := []
  typ? : Option String := none
  values : List ConstExpr := []

/-- Const from entities.go. -/
structure Const where
  valSpec : ValueSpec := {}
  Doc : String := ""
  Names : List String := []
  Values : List Value := []

/-- ConstGroup from entities.go. -/
structure ConstGroup where
  Doc : String := ""
  Consts : List Const := []

/-- Func from entities.go. -/
structure Func where
  Receiver : Option Field := none
  Name : String := ""
  Doc : String := ""
  Comment : String := ""
  Params : List Field := []
  Results : List Field := []
  funcKw : Bool := false

/-- TypeDef from entities.go (Go field `Type` is `typ`). -/
structure TypeDef where
  typ : String := ""
  Name : String := ""
  Doc : String := ""
  Key : String := ""
  Value : String := ""
  Dir : String := ""
  Elt : String := ""
  Len : String := ""
  Params : List Field := []
  Results : List Field := []
  Fields : List Field := []
  Methods : List Func := []

/-- Package from entities.go. -/
structure Package where
  Name : String := ""
  Doc : String := ""
  Consts : List ConstGroup := []
  Funcs : List Func := []
  Types : List TypeDef := []

/-- Const's Symbol interface implementation (entities.go): Ident and
IsExported index `Names[0]`, which panics on an empty name list. -/
def Const.toSymbol (c : Const) : Symbol :=
  ⟨c.Names.head?, c.Names.head?.bind isExportedIdentOpt, .SymbolConst⟩

/-- Func's Symbol interface implementation (entities.go). -/
def Func.toSymbol (f : Func) : Symbol :=
  ⟨some f.Name, isExportedIdentOpt f.Name, .SymbolFunc⟩

/-- TypeDef.SymbolType from entities.go: the symbol kind derived from the
type tag string. -/
def TypeDef.symbolType (td : TypeDef) : SymbolType :=
  if td.typ = "struct" then .SymbolStructType
  else if td.typ = "interface" then .SymbolInterfaceType
  else if td.typ = "func" then .SymbolFuncType
  else if td.typ = "map" then .SymbolMapType
  else if td.typ = "chan" then .SymbolChanType
  else if td.typ = "array" then .SymbolArrayType
  else .SymbolIdentType

/-- TypeDef's Symbol interface implementation (entities.go). -/
def TypeDef.toSymbol (td : TypeDef) : Symbol :=
  ⟨some td.Name, isExportedIdentOpt td.Name, td.symbolType⟩

/-- Field.Ident from entities.go: empty string for an empty name list. -/
def Field.Ident (sf : Field) : String :=
  match sf.Names with
  | [] => ""
  | n :: _ => n

/-- Field's Symbol interface implementation (entities.go): Ident is total,
but IsExported indexes `Names[0]` and panics on an empty name list. -/
def Field.toSymbol (sf : Field) : Symbol :=
  ⟨some sf.Ident,
    (match sf.Names with
      | [] => none
      | n :: _ => isExportedIdentOpt n),
    sf.symbolType⟩

/-- Field.String/Print from entities.go. -/
def Field.render (sf : Field) : String :=
  (if sf.Doc ≠ "" then mkComment sf.Doc else "") ++
    String.intercalate ", " sf.Names ++ " " ++ sf.typ ++
    (if sf.Comment ≠ "" then " // " ++ sf.Comment else "")

/-- fieldsList from helpers.go. -/
def fieldsList (fl : List Field) : String :=
  if fl.length = 0 then ""
  else String.intercalate ", " (fl.map Field.render)

/-- resultsList from helpers.go (current version): parenthesizes only when
there is more than one result entry. -/
def resultsList (fl : List Field) : String :=
  let s := fieldsList fl
  if fl.length > 1 then "(" ++ s ++ ")" else s

/-- Func.String/Print from entities.go. -/
def Func.render (f : Func) : String :=
  (if f.Doc ≠ "" then mkComment f.Doc else "") ++
    (if f.funcKw then "func " else "") ++
    (match f.Receiver with
      | some r => "(" ++ r.render ++ ") "
      | none => "") ++
    f.Name ++ "(" ++ fieldsList f.Params ++ ") " ++ resultsList f.Results ++
    (if f.Comment ≠ "" then " // " ++ f.Comment else "")

/-- printInterfaceType from entities.go. -/
def printInterfaceType (iface : TypeDef) : String :=
  (if iface.Doc ≠ "" then mkComment iface.Doc else "") ++
    "type " ++ iface.Name ++ " interface \x7b" ++
    (if iface.Methods.length ≠ 0 then
      "\n" ++ String.join (iface.Methods.map (fun m => "    " ++ m.render ++ "\n"))
    else "") ++
    "\x7d"

/-- ast.Field as consumed by Parser.parseField: names, the printed text of
the type expression, and optional doc and trailing comment text. -/
structure ASTField where
  names : List String := []
  typ : String := ""
  doc? : Option String := none
  comment? : Option String := none

/-- doc.Value as consumed by Parser.parseConst: the group doc and the decl
specs; `none` models a spec that is not an ast.ValueSpec (Go panics on it). -/
structure DocValue where
  doc : String := ""
  specs : List (Option ValueSpec) := []

/-- One entry of an interface type's method field list: a method signature
(an ast.Field whose type is an ast.FuncType), or any other entry such as an
embedded interface, which Parser.parseTypes skips. -/
inductive IfaceEntry where
  | method (names : List String) (doc? comment? : Option String)
      (params : Option (List ASTField)) (results : Option (List ASTField))
  | nonFunc

/-- ast.ChanType.Dir. -/
inductive ChanDir where
  | RECV
  | SEND
  | BOTH

/-- The go/ast type-expression shapes inspected by Parser.parseTypes;
`otherS` is any unrecognized shape (skipped, not fatal).  Printed type texts
(map key/value, chan element, array element and length) are carried as
strings, as produced by the external printNodes printer. -/
inductive TypeSpecShape where
  | identS (name : String)
  | structS (fields : Option (List ASTField))
  | interfaceS (methods : Option (List IfaceEntry))
  | funcS (params : Option (List ASTField)) (results : Option (List ASTField))
  | mapS (key : String) (value : String)
  | chanS (dir : ChanDir) (value : String)
  | arrayS (len? : Option String) (elt : String)
  | otherS

/-- doc.Func as consumed by Parser.parseFunc: name, doc, the receiver,
parameter, and result field lists (`none` models a nil list), and whether
`decl.Type.Func` carries a position (the func keyword flag). -/
structure DocFunc where
  name : String := ""
  doc : String := ""
  recv? : Option (List ASTField) := none
  params? : Option (List ASTField) := none
  results? : Option (List ASTField) := none
  hasFuncKw : Bool := true

/-- doc.Type as consumed by Parser.parseTypes: `isTypeTok` models
`t.Decl.Tok == token.TYPE`, `specs` the decl specs (`none` for a spec that is
not an ast.TypeSpec), and the associated consts, functions, and methods. -/
structure DocType where
  name : String := ""
  doc : String := ""
  isTypeTok : Bool := true
  specs : List (Option TypeSpecShape) := []
  consts : List DocValue := []
  funcs : List DocFunc := []
  methods : List DocFunc := []

/-- doc.Package as consumed by Parser.Package. -/
structure DocPackage where
  name : String := ""
  doc : String := ""
  consts : List DocValue := []
  types : List DocType := []
  funcs : List DocFunc := []

/-- Evaluate the filter chain on a symbol; a `none` verdict is a Go runtime
panic inside a filter and aborts extraction. -/
def Parser.includeSymbolE (p : Parser) (s : Symbol) : Except String Bool :=
  match includeSymbol p.filters s with
  | none => .error "runtime error: index out of range"
  | some b => .ok b

/-- ast.FieldList.NumFields: total number of names, counting an anonymous
field as one. -/
def numFields : Option (List ASTField) → Nat
  | none => 0
  | some l => (l.map (fun f => if f.names.length = 0 then 1 else f.names.length)).sum

/-- Parser.parseField from parse.go. -/
def Parser.parseField (p : Parser) (af : ASTField) (st : SymbolType) : Field :=
  { Names := af.names, typ := af.typ, symbolType := st,
    Doc := match af.doc? with | some d => p.mkDoc d | none => "",
    Comment := match af.comment? with | some c => p.mkDoc c | none => "" }

/-- Loop body of Parser.parseFieldList: parse each field and keep it when the
filter chain includes it. -/
def Parser.parseFieldListAux (p : Parser) (st : SymbolType) :
    List ASTField → Except String (List Field)
  | [] => .ok []
  | f :: rest => do
      let pf := p.parseField f st
      let keep ← p.includeSymbolE pf.toSymbol
      let tail ← p.parseFieldListAux st rest
      .ok (if keep then pf :: tail else tail)

/-- Parser.parseFieldList from parse.go (nil list yields nil). -/
def Parser.parseFieldList (p : Parser) (fl : Option (List ASTField))
    (st : SymbolType) : Except String (List Field) :=
  match fl with
  | none => .ok []
  | some l => p.parseFieldListAux st l

/-- Parser.parseFunc from parse.go. -/
def Parser.parseFunc (p : Parser) (df : DocFunc) : Except String Func := do
  let fn : Func := { Name := df.name, Doc := p.mkDoc df.doc, funcKw := df.hasFuncKw }
  let fn ←
    match df.recv? with
    | some (r :: _) =>
        pure { fn with Receiver := some (p.parseField r .SymbolReceiverField) }
    | _ => pure fn
  let fn ←
    match df.params? with
    | some l =>
        if numFields (some l) ≠ 0 then do
          let ps ← p.parseFieldList (some l) .SymbolParamField
          pure { fn with Params := ps }
        else pure fn
    | none => pure fn
  let fn ←
    match df.results? with
    | some l =>
        if numFields (some l) ≠ 0 then do
          let rs ← p.parseFieldList (some l) .SymbolResultField
          pure { fn with Results := rs }
        else pure fn
    | none => pure fn
  pure fn

/-- Parser.parseFuncs from parse.go: parse each doc.Func and append the ones
the filter chain includes to the package's function list. -/
def Parser.parseFuncs (p : Parser) (pkg : Package) :
    List DocFunc → Except String Package
  | [] => .ok pkg
  | fn :: rest => do
      let pfn ← p.parseFunc fn
      let keep ← p.includeSymbolE pfn.toSymbol
      let pkg := if keep then { pkg with Funcs := pkg.Funcs ++ [pfn] } else pkg
      p.parseFuncs pkg rest

/-- The explicit type annotation of a value-spec overrides the inferred value
type and marks it specific (tail of the value loop in Parser.parseConst). -/
def applySpecType (vs : ValueSpec) (val : Value) : Value :=
  match vs.typ? with
  | some t => { val with typ := t, Specific := true }
  | none => val

/-- One iteration of the value loop in Parser.parseConst: infer the value's
type from its expression shape; unrecognized shapes panic, and a call
expression indexes `Args[0]`, which panics on an empty argument list. -/
def parseConstValue (vs : ValueSpec) (v : ConstExpr) : Except String Value :=
  match v with
  | .basicLit kind value =>
      .ok (applySpecType vs { Value := value, typ := typeNames kind })
  | .callExpr funText args =>
      match args with
      | [] => .error "runtime error: index out of range"
      | a :: _ =>
          let value := match a with | .basicLit _ lit => lit | _ => ""
          .ok (applySpecType vs { Value := value, typ := funText, Specific := true })
  | .identE name => .ok (applySpecType vs { typ := name })
  | .otherE desc => .error ("unsupported const value type " ++ desc)

/-- The value loop of Parser.parseConst over all values of one spec. -/
def parseConstValues (vs : ValueSpec) : List ConstExpr → Except String (List Value)
  | [] => .ok []
  | v :: rest => do
      let val ← parseConstValue vs v
      let tail ← parseConstValues vs rest
      .ok (val :: tail)

/-- The spec loop of Parser.parseConst: a non-ValueSpec spec panics; an
excluded Const is skipped before its values are inspected; included Consts
keep their sibling order. -/
def Parser.parseConstSpecs (p : Parser) :
    List (Option ValueSpec) → Except String (List Const)
  | [] => .ok []
  | none :: _ => .error "unsupported const spec type"
  | some vs :: rest => do
      let c : Const := { Names := vs.names, Values := [], valSpec := vs }
      let keep ← p.includeSymbolE c.toSymbol
      if keep then
        let vals ← parseConstValues vs vs.values
        let tail ← p.parseConstSpecs rest
        .ok ({ c with Values := vals } :: tail)
      else
        p.parseConstSpecs rest

/-- Parser.parseConst from parse.go. -/
def Parser.parseConst (p : Parser) (dVal : DocValue) : Except String ConstGroup := do
  let cs ← p.parseConstSpecs dVal.specs
  .ok { Doc := p.mkDoc dVal.doc, Consts := cs }

/-- Parser.parseConsts from parse.go: groups whose retained Const list is
empty are omitted from the package. -/
def Parser.parseConsts (p : Parser) (pkg : Package) :
    List DocValue → Except String Package
  | [] => .ok pkg
  | dVal :: rest => do
      let cg ← p.parseConst dVal
      let pkg :=
        if cg.Consts.length = 0 then pkg
        else { pkg with Consts := pkg.Consts ++ [cg] }
      p.parseConsts pkg rest

/-- Interface branch of Parser.parseTypes, one method entry: entries that are
not function types are skipped; a method signature becomes a Func without
receiver or func keyword (indexing `m.Names[0]` panics on an empty name
list). -/
def Parser.buildIfaceFunc (p : Parser) (e : IfaceEntry) :
    Except String (Option Func) :=
  match e with
  | .nonFunc => .ok none
  | .method names doc? comment? params results =>
      match names with
      | [] => .error "runtime error: index out of range"
      | n :: _ => do
          let ps ← p.parseFieldList params .SymbolParamField
          let rs ← p.parseFieldList results .SymbolResultField
          .ok (some
            { Name := n, Params := ps, Results := rs, funcKw := false,
              Doc := match doc? with | some d => p.mkDoc d | none => "",
              Comment := match comment? with | some c => p.mkDoc c | none => "" })

/-- Interface branch of Parser.parseTypes over all entries, in order. -/
def Parser.buildIfaceFuncs (p : Parser) :
    List IfaceEntry → Except String (List Func)
  | [] => .ok []
  | e :: rest => do
      let f? ← p.buildIfaceFunc e
      let tail ← p.buildIfaceFuncs rest
      .ok (match f? with | some f => f :: tail | none => tail)

/-- The chan direction switch of Parser.parseTypes (bidirectional leaves Dir
empty). -/
def chanDirString : ChanDir → String
  | .RECV => "recv"
  | .SEND => "send"
  | .BOTH => ""

/-- The type-expression switch of Parser.parseTypes: fill the TypeDef's
shape-specific data; `none` is the default case (unrecognized shape, the type
is skipped). -/
def Parser.buildTypeDef (p : Parser) (td : TypeDef) (ts : TypeSpecShape) :
    Except String (Option TypeDef) :=
  match ts with
  | .identS n => .ok (some { td with typ := n })
  | .structS fields => do
      let fs ← p.parseFieldList fields .SymbolStructField
      .ok (some { td with typ := "struct", Fields := fs })
  | .interfaceS methods? => do
      let ms ←
        match methods? with
        | some entries => p.buildIfaceFuncs entries
        | none => pure []
      .ok (some { td with typ := "interface", Methods := ms })
  | .funcS params results => do
      let ps ← p.parseFieldList params .SymbolParamField
      let rs ← p.parseFieldList results .SymbolResultField
      .ok (some { td with typ := "func", Params := ps, Results := rs })
  | .mapS key value => .ok (some { td with typ := "map", Key := key, Value := value })
  | .chanS dir value =>
      .ok (some { td with typ := "chan", Value := value, Dir := chanDirString dir })
  | .arrayS len? elt =>
      .ok (some { td with
                  typ := "array", Elt := elt,
                  Len := (match len? with | some l => l | none => "") })
  | .otherS => .ok none

/-- The method loop at the end of Parser.parseTypes: runs only for a retained
TypeDef; included methods are appended to the TypeDef's method list. -/
def Parser.attachMethods (p : Parser) (td : TypeDef) :
    List DocFunc → Except String TypeDef
  | [] => .ok td
  | m :: rest => do
      let pm ← p.parseFunc m
      let keep ← p.includeSymbolE pm.toSymbol
      let td := if keep then { td with Methods := td.Methods ++ [pm] } else td
      p.attachMethods td rest

/-- The spec loop of Parser.parseTypes for one doc.Type: associated consts
and functions are extracted into the package before the TypeDef's own filter
verdict; an excluded TypeDef is dropped together with its methods. -/
def Parser.parseTypeSpecs (p : Parser) (pkg : Package) (t : DocType) :
    List (Option TypeSpecShape) → Except String Package
  | [] => .ok pkg
  | none :: rest => p.parseTypeSpecs pkg t rest
  | some ts :: rest => do
      let td : TypeDef := { Name := t.name, Doc := p.mkDoc t.doc }
      let pkg ← p.parseConsts pkg t.consts
      let pkg ← p.parseFuncs pkg t.funcs
      let td? ← p.buildTypeDef td ts
      match td? with
      | none => p.parseTypeSpecs pkg t rest
      | some td => do
          let keep ← p.includeSymbolE td.toSymbol
          if keep then do
            let td ← p.attachMethods td t.methods
            p.parseTypeSpecs { pkg with Types := pkg.Types ++ [td] } t rest
          else
            p.parseTypeSpecs pkg t rest

/-- Parser.parseTypes from parse.go (declarations whose token is not TYPE are
skipped).  Go wraps propagated error messages with context text; the wrapping
is omitted here since only the error/success distinction is consumed. -/
def Parser.parseTypes (p : Parser) (pkg : Package) :
    List DocType → Except String Package
  | [] => .ok pkg
  | t :: rest => do
      if t.isTypeTok then do
        let pkg ← p.parseTypeSpecs pkg t t.specs
        p.parseTypes pkg rest
      else
        p.parseTypes pkg rest

/-- Parser.Package from parse.go: package shell, then consts, then types
(with their associated consts/functions/methods), then top-level functions. -/
def Parser.Package (p : Parser) (dPkg : DocPackage) :
    Except String Pkgdmp.Package := do
  let pkg : Pkgdmp.Package := { Name := dPkg.name, Doc := p.mkDoc dPkg.doc }
  let pkg ← p.parseConsts pkg dPkg.consts
  let pkg ← p.parseTypes pkg dPkg.types
  let pkg ← p.parseFuncs pkg dPkg.funcs
  .ok pkg

/-- C2 counterexample: a package-name filter constructed with action Include
and an empty name set returns false for a symbol of the package kind, refuting
the claim that every constructed filter's include method returns true for the
package kind. -/
theorem c2_unfilterable_counterexample :
    SymbolFilter.Include (.filterPackages .Include [])
      ⟨some "mypackage", some true, .SymbolPackage⟩ = some false := rfl

/-- C2 amended: for symbols of the paramField, resultField, and receiverField
kinds, every constructed filter's include method returns true regardless of
configured action, pattern, or set; for the package kind this holds for the
unexported, kind, and ident filters (via the unfilterable mechanism), while
the package-name filter instead applies its name-set test to package
symbols. -/
theorem c2_unfilterable_amended :
    (∀ (f : SymbolFilter) (s : Symbol),
        s.symbolType = .SymbolParamField ∨ s.symbolType = .SymbolResultField ∨
          s.symbolType = .SymbolReceiverField →
        f.Include s = some true)
    ∧ (∀ (f : SymbolFilter) (s : Symbol), s.symbolType = .SymbolPackage →
        f.isPackagesFilter = false → f.Include s = some true) := by
  constructor
  · intro f s h
    apply include_field_unfilterable
    simp only [isFieldUnfilterable, decide_eq_true_eq]
    tauto
  · intro f s hpkg hnp
    have hu : isUnfilterable s = true := by
      simp [isUnfilterable, unfilterableMap, hpkg]
    cases f with
    | filterUnexported action => simp [SymbolFilter.Include, hu]
    | filterSymbolTypes action stSet => simp [SymbolFilter.Include, hu]
    | filterMatchingIdents action pattern => simp [SymbolFilter.Include, hu]
    | filterPackages action pkgSet => simp [SymbolFilter.isPackagesFilter] at hnp

/-- C2 witness: the amended statement applied to a receiver-kind symbol whose
export check would panic, and to a package symbol under a non-package
filter. -/
theorem c2_unfilterable_witness :
    SymbolFilter.Include (.filterUnexported .Exclude)
      ⟨some "s", none, .SymbolReceiverField⟩ = some true
    ∧ SymbolFilter.Include (.filterUnexported .Exclude)
      ⟨some "mypackage", some true, .SymbolPackage⟩ = some true :=
  ⟨c2_unfilterable_amended.1 _ _ (Or.inr (Or.inr rfl)),
    c2_unfilterable_amended.2 _ _ rfl rfl⟩

/-- C5: resultsList evaluated at the claim's cases: the empty list and a
single unnamed result render without parentheses, two results render
parenthesized and comma-joined, but a single NAMED result also renders
without parentheses — diverging from the claim, which requires parentheses
whenever names are present (resultsList only tests the list length). -/
theorem c5_resultsList_eval :
    resultsList [] = ""
    ∧ resultsList [{ typ := "int", symbolType := .SymbolResultField }] = " int"
    ∧ resultsList
        [{ typ := "int", Names := ["n"], symbolType := .SymbolResultField },
          { typ := "error", Names := ["err"], symbolType := .SymbolResultField }] =
        "(n int, err error)"
    ∧ resultsList [{ typ := "int", Names := ["n"], symbolType := .SymbolResultField }] =
        "n int" :=
  ⟨rfl, rfl, rfl, rfl⟩

/-- C7: const value type inference in Parser.parseConst: without an explicit
type annotation, a basic literal takes its type from the fixed token table
and is not marked specific, a bare identifier takes the identifier text as
type and is not marked specific, and a call expression takes the called
function name as type and is marked specific; an explicit type annotation on
the value-spec overrides the inferred type for every shape and marks the
value specific; the token table maps integer, float, imaginary, char, and
string literals to int, float64, complex128, rune, and string. -/
theorem c7_const_value_inference (vs : ValueSpec) (k : LitKind)
    (nm funText ty lit : String) (a : ConstExpr) (args : List ConstExpr) :
    (vs.typ? = none →
      parseConstValue vs (.basicLit k lit) = .ok { Value := lit, typ := typeNames k }
      ∧ parseConstValue vs (.identE nm) = .ok { typ := nm }
      ∧ parseConstValue vs (.callExpr funText (a :: args)) =
          .ok { Value := (match a with | .basicLit _ l => l | _ => ""),
                typ := funText, Specific := true })
    ∧ (vs.typ? = some ty →
      (parseConstValue vs (.basicLit k lit)).map (fun v => (v.typ, v.Specific)) =
        .ok (ty, true)
      ∧ (parseConstValue vs (.identE nm)).map (fun v => (v.typ, v.Specific)) =
        .ok (ty, true)
      ∧ (parseConstValue vs (.callExpr funText (a :: args))).map
          (fun v => (v.typ, v.Specific)) = .ok (ty, true))
    ∧ typeNames .INT = "int" ∧ typeNames .FLOAT = "float64"
    ∧ typeNames .IMAG = "complex128" ∧ typeNames .CHAR = "rune"
    ∧ typeNames .STRING = "string" := by
  refine ⟨fun h => ⟨?_, ?_, ?_⟩, fun h => ⟨?_, ?_, ?_⟩, rfl, rfl, rfl, rfl, rfl⟩ <;>
    simp [parseConstValue, applySpecType, h, Except.map]

/-- C7 witness: the inference rules applied to an untyped integer literal and
to a float literal under an explicit float32 annotation. -/
theorem c7_const_value_witness :
    parseConstValue { names := ["C"] } (.basicLit .INT "42") =
      .ok { Value := "42", typ := "int" }
    ∧ (parseConstValue { names := ["C"], typ? := some "float32" }
        (.basicLit .FLOAT "4.321")).map (fun v => (v.typ, v.Specific)) =
      .ok ("float32", true) :=
  ⟨((c7_const_value_inference { names := ["C"] } .INT "x" "f" "t" "42"
      (.identE "x") []).1 rfl).1,
    ((c7_const_value_inference { names := ["C"], typ? := some "float32" } .FLOAT
      "x" "f" "float32" "4.321" (.identE "x") []).2.1 rfl).1⟩

/-- C9: documentation mode contract of Parser.mkDoc: with noDocs set every
doc string is reduced to the empty string; with fullDocs set the text is
returned whitespace-trimmed with a leading comment marker stripped and
otherwise unmodified; in the default mode the example text is reduced to its
first sentence. -/
theorem c9_doc_modes (filters : List SymbolFilter) (s : String) :
    Parser.mkDoc { filters := filters, noDocs := true } s = ""
    ∧ Parser.mkDoc { filters := filters, fullDocs := true }
        "  // Foo does X. It also does Y.  " = "Foo does X. It also does Y."
    ∧ Parser.mkDoc { filters := filters, fullDocs := true }
        "Foo does X. It also does Y." = "Foo does X. It also does Y."
    ∧ Parser.mkDoc { filters := filters } "Foo does X. It also does Y." =
        "Foo does X." :=
  ⟨rfl, rfl, rfl, rfl⟩

/-- C10: the overall verdict of the filter chain is the logical AND of the
individual filter verdicts, so the chain of two filters yields the same
inclusion verdict in either order, for every symbol whose interface methods
evaluate without panicking. -/
theorem c10_filter_order_commutes (A B : SymbolFilter) (s : Symbol)
    (hi : s.ident?.isSome = true) (he : s.isExported?.isSome = true) :
    includeSymbol [A, B] s = includeSymbol [B, A] s := by
  obtain ⟨a, ha⟩ := Option.isSome_iff_exists.mp (include_isSome A s hi he)
  obtain ⟨b, hb⟩ := Option.isSome_iff_exists.mp (include_isSome B s hi he)
  rw [includeSymbol_pair A B s a b ha hb, includeSymbol_pair B A s b a hb ha,
    Bool.and_comm]

/-- C10 witness: commutativity of an unexported-exclude filter and a kind
filter on a concrete unexported function symbol. -/
theorem c10_filter_order_witness :
    includeSymbol [.filterUnexported .Exclude, .filterSymbolTypes .Exclude [.SymbolFunc]]
        ⟨some "myFunc", some false, .SymbolFunc⟩ =
      includeSymbol [.filterSymbolTypes .Exclude [.SymbolFunc], .filterUnexported .Exclude]
        ⟨some "myFunc", some false, .SymbolFunc⟩ :=
  c10_filter_order_commutes _ _ _ rfl rfl

lemma except_bind_ok {α β : Type} (x : Except String α) (f : α → Except String β)
    (b : β) (h : x >>= f = .ok b) : ∃ a, x = .ok a ∧ f a = .ok b := by
  cases x with
  | error e => simp [Bind.bind, Except.bind] at h
  | ok a => exact ⟨a, rfl, by simpa [Bind.bind, Except.bind] using h⟩

lemma except_bind_ok_right {α : Type} (x : Except String α) :
    (x >>= fun a => (.ok a : Except String α)) = x := by
  cases x <;> rfl

/-- C3 counterexample: extracting a struct with an anonymous (embedded) field
under an unexported-exclude filter reaches the export-casing check on a field
whose name list is empty: Field.IsExported indexes the empty Names slice and
extraction aborts with the index panic, refuting the claim that a field with
zero names is never evaluated by a filter's export check. -/
theorem c3_empty_ident_counterexample :
    Parser.Package { filters := [.filterUnexported .Exclude] }
      { name := "mypackage",
        types := [{ name := "MyStruct",
                    specs := [some (.structS (some [{ names := [], typ := "io.Reader" }]))] }] } =
      .error "runtime error: index out of range" := rfl

/-- C3 amended: unnamed parameter, result, and receiver fields are indeed
never evaluated by a filter's export check — parseFieldList retains every
field of such a kind unconditionally and never panics — but a struct field
with zero names (an embedded field) IS offered to the filter stage, where the
export check indexes its empty name list (see the counterexample). -/
theorem c3_unnamed_fields_safe (p : Parser) (fl : List ASTField) (st : SymbolType)
    (h : st = .SymbolParamField ∨ st = .SymbolResultField ∨ st = .SymbolReceiverField) :
    p.parseFieldList (some fl) st = .ok (fl.map (fun af => p.parseField af st)) := by
  induction fl with
  | nil => rfl
  | cons f rest ih =>
      have hfu : isFieldUnfilterable (p.parseField f st).toSymbol.symbolType = true := by
        rcases h with h | h | h <;>
          simp [Parser.parseField, Field.toSymbol, isFieldUnfilterable, h]
      have hinc : p.includeSymbolE (p.parseField f st).toSymbol = .ok true := by
        simp [Parser.includeSymbolE, includeSymbol_field_unfilterable _ _ hfu]
      simp only [Parser.parseFieldList] at ih
      simp [Parser.parseFieldList, Parser.parseFieldListAux, hinc, ih,
        Bind.bind, Except.bind]

/-- C3 witness: the amended statement applied to a single unnamed result
field under an unexported-exclude filter. -/
theorem c3_unnamed_fields_witness :
    Parser.parseFieldList { filters := [.filterUnexported .Exclude] }
      (some [{ names := [], typ := "int" }]) .SymbolResultField =
      .ok [{ typ := "int", symbolType := .SymbolResultField }] :=
  c3_unnamed_fields_safe _ _ _ (Or.inr (Or.inl rfl))

/-- C6 counterexample: an interface method carrying doc text in the source
AST is rendered with its doc re-emitted as a comment inside the interface
body (the default parser retains the synopsis and Func rendering emits it),
refuting the claim that the rendered interface body never contains comment
lines for its method signatures. -/
theorem c6_interface_doc_counterexample :
    (Parser.Package {}
      { name := "mypackage",
        types := [{ name := "MyIface",
                    specs := [some (.interfaceS
                      (some [.method ["M"] (some "Hello.") none none none]))] }] }).map
        (fun pkg => pkg.Types.map printInterfaceType) =
      .ok ["type MyIface interface \x7b\n    // Hello. \nM() \n\x7d"] := rfl

/-- C6 amended: an interface method parsed without attached doc or comment
text has empty Doc and Comment, no receiver, and no func keyword, and such a
method renders as a bare signature (name, parenthesized parameter list,
results); methods whose doc text is retained re-emit it as comment lines
inside the body, as the counterexample shows. -/
theorem c6_interface_doc_amended (p : Parser) (nm : String) (nms : List String)
    (ps rs : Option (List ASTField)) (m : Func) :
    (p.buildIfaceFunc (.method (nm :: nms) none none ps rs) = .ok (some m) →
      m.Doc = "" ∧ m.Comment = "" ∧ m.Receiver = none ∧ m.funcKw = false)
    ∧ (m.Doc = "" → m.Receiver = none → m.funcKw = false →
      m.render = m.Name ++ "(" ++ fieldsList m.Params ++ ") " ++
        resultsList m.Results ++
        (if m.Comment ≠ "" then " // " ++ m.Comment else "")) := by
  constructor
  · intro hbuild
    simp only [Parser.buildIfaceFunc] at hbuild
    obtain ⟨psv, hps, hbuild⟩ := except_bind_ok _ _ _ hbuild
    obtain ⟨rsv, hrs, hbuild⟩ := except_bind_ok _ _ _ hbuild
    simp only [Except.ok.injEq, Option.some.injEq] at hbuild
    rw [← hbuild]
    exact ⟨rfl, rfl, rfl, rfl⟩
  · intro hdoc hrecv hkw
    simp [Func.render, hdoc, hrecv, hkw]

/-- C6 witness: the amended statement applied to the parse of a bare
interface method and to its rendering. -/
theorem c6_interface_doc_witness :
    ({ Name := "M" } : Func).Doc = ""
    ∧ Func.render ({ Name := "M" } : Func) =
        ({ Name := "M" } : Func).Name ++ "(" ++
          fieldsList ({ Name := "M" } : Func).Params ++ ") " ++
          resultsList ({ Name := "M" } : Func).Results ++
          (if ({ Name := "M" } : Func).Comment ≠ "" then
            " // " ++ ({ Name := "M" } : Func).Comment
          else "") :=
  ⟨((c6_interface_doc_amended {} "M" [] none none { Name := "M" }).1 rfl).1,
    (c6_interface_doc_amended {} "M" [] none none { Name := "M" }).2 rfl rfl rfl⟩

lemma parseFuncs_consts (p : Parser) (l : List DocFunc) :
    ∀ (pkg pkg' : Package), p.parseFuncs pkg l = .ok pkg' →
      pkg'.Consts = pkg.Consts := by
  induction l with
  | nil =>
      intro pkg pkg' h
      simp only [Parser.parseFuncs, Except.ok.injEq] at h
      rw [← h]
  | cons fn rest ih =>
      intro pkg pkg' h
      simp only [Parser.parseFuncs] at h
      obtain ⟨pfn, hf, h⟩ := except_bind_ok _ _ _ h
      obtain ⟨keep, hk, h⟩ := except_bind_ok _ _ _ h
      have := ih _ _ h
      cases keep <;> simpa using this

lemma parseConsts_nonempty (p : Parser) (l : List DocValue) :
    ∀ (pkg pkg' : Package), p.parseConsts pkg l = .ok pkg' →
      (∀ cg ∈ pkg.Consts, cg.Consts ≠ []) →
      ∀ cg ∈ pkg'.Consts, cg.Consts ≠ [] := by
  induction l with
  | nil =>
      intro pkg pkg' h hinv
      simp only [Parser.parseConsts, Except.ok.injEq] at h
      rw [← h]
      exact hinv
  | cons dv rest ih =>
      intro pkg pkg' h hinv
      simp only [Parser.parseConsts] at h
      obtain ⟨cg, hcg, h⟩ := except_bind_ok _ _ _ h
      by_cases hz : cg.Consts.length = 0
      · rw [if_pos hz] at h
        exact ih _ _ h hinv
      · rw [if_neg hz] at h
        refine ih _ _ h ?_
        intro cg' hmem
        rcases List.mem_append.mp hmem with hmem' | hmem'
        · exact hinv cg' hmem'
        · have : cg' = cg := by simpa using hmem'
          rw [this]
          intro hnil
          exact hz (by rw [hnil]; rfl)

lemma parseTypeSpecs_nonempty (p : Parser) (t : DocType) :
    ∀ (specs : List (Option TypeSpecShape)) (pkg pkg' : Package),
      p.parseTypeSpecs pkg t specs = .ok pkg' →
      (∀ cg ∈ pkg.Consts, cg.Consts ≠ []) →
      ∀ cg ∈ pkg'.Consts, cg.Consts ≠ [] := by
  intro specs
  induction specs with
  | nil =>
      intro pkg pkg' h hinv
      simp only [Parser.parseTypeSpecs, Except.ok.injEq] at h
      rw [← h]
      exact hinv
  | cons s? rest ih =>
      cases s? with
      | none =>
          intro pkg pkg' h hinv
          exact ih _ _ h hinv
      | some ts =>
          intro pkg pkg' h hinv
          simp only [Parser.parseTypeSpecs] at h
          obtain ⟨pkg1, h1, h⟩ := except_bind_ok _ _ _ h
          have hinv1 := parseConsts_nonempty p t.consts pkg pkg1 h1 hinv
          obtain ⟨pkg2, h2, h⟩ := except_bind_ok _ _ _ h
          have hinv2 : ∀ cg ∈ pkg2.Consts, cg.Consts ≠ [] := by
            rw [parseFuncs_consts p t.funcs pkg1 pkg2 h2]
            exact hinv1
          obtain ⟨td?, h3, h⟩ := except_bind_ok _ _ _ h
          cases td? with
          | none => exact ih _ _ h hinv2
          | some td =>
              obtain ⟨keep, h4, h⟩ := except_bind_ok _ _ _ h
              cases keep with
              | false =>
                  simp only [Bool.false_eq_true, if_false] at h
                  exact ih _ _ h hinv2
              | true =>
                  simp only [if_true] at h
                  obtain ⟨td2, h5, h⟩ := except_bind_ok _ _ _ h
                  exact ih _ _ h hinv2

lemma parseTypes_nonempty (p : Parser) :
    ∀ (types : List DocType) (pkg pkg' : Package),
      p.parseTypes pkg types = .ok pkg' →
      (∀ cg ∈ pkg.Consts, cg.Consts ≠ []) →
      ∀ cg ∈ pkg'.Consts, cg.Consts ≠ [] := by
  intro types
  induction types with
  | nil =>
      intro pkg pkg' h hinv
      simp only [Parser.parseTypes, Except.ok.injEq] at h
      rw [← h]
      exact hinv
  | cons t rest ih =>
      intro pkg pkg' h hinv
      simp only [Parser.parseTypes] at h
      by_cases htok : t.isTypeTok
      · rw [if_pos htok] at h
        obtain ⟨pkg1, h1, h⟩ := except_bind_ok _ _ _ h
        exact ih _ _ h (parseTypeSpecs_nonempty p t t.specs pkg pkg1 h1 hinv)
      · rw [if_neg htok] at h
        exact ih _ _ h hinv

/-- C8: const group filtering granularity: the group `const ( A = 1; b = 2 )`
under an unexported-exclude filter is kept and contains only the retained
sibling A, while the fully-unexported group `const ( a = 1; b = 2 )` is
omitted from the package entirely; in general, every const group of a
successfully extracted package has at least one retained member. -/
theorem c8_const_group_filtering :
    Parser.Package { filters := [.filterUnexported .Exclude] }
      { name := "mypackage",
        consts := [{ specs := [some { names := ["A"], values := [.basicLit .INT "1"] },
                               some { names := ["b"], values := [.basicLit .INT "2"] }] }] } =
      .ok { Name := "mypackage",
            Consts := [{ Consts := [{ valSpec := { names := ["A"],
                                                   values := [.basicLit .INT "1"] },
                                      Names := ["A"],
                                      Values := [{ Value := "1", typ := "int" }] }] }] }
    ∧ Parser.Package { filters := [.filterUnexported .Exclude] }
      { name := "mypackage",
        consts := [{ specs := [some { names := ["a"], values := [.basicLit .INT "1"] },
                               some { names := ["b"], values := [.basicLit .INT "2"] }] }] } =
      .ok { Name := "mypackage" }
    ∧ ∀ (p : Parser) (d : DocPackage) (pkg : Package),
        p.Package d = .ok pkg → ∀ cg ∈ pkg.Consts, cg.Consts ≠ [] := by
  refine ⟨rfl, rfl, ?_⟩
  intro p d pkg h cg hmem
  simp only [Parser.Package] at h
  obtain ⟨pkg1, h1, h⟩ := except_bind_ok _ _ _ h
  obtain ⟨pkg2, h2, h⟩ := except_bind_ok _ _ _ h
  obtain ⟨pkg3, h3, h⟩ := except_bind_ok _ _ _ h
  have hinv0 : ∀ cg ∈ ({ Name := d.name, Doc := p.mkDoc d.doc } : Package).Consts,
      cg.Consts ≠ [] := by
    intro cg hmem'
    simp at hmem'
  have hinv1 := parseConsts_nonempty p d.consts _ pkg1 h1 hinv0
  have hinv2 := parseTypes_nonempty p d.types pkg1 pkg2 h2 hinv1
  have hinv3 : ∀ cg ∈ pkg3.Consts, cg.Consts ≠ [] := by
    rw [parseFuncs_consts p d.funcs pkg2 pkg3 h3]
    exact hinv2
  have : pkg3 = pkg := by simpa using h
  rw [← this] at hmem
  exact hinv3 cg hmem

/-- C8 witness: the general nonemptiness part applied to the group retained
in the first scenario. -/
theorem c8_const_group_witness :
    ({ Consts := [{ valSpec := { names := ["A"], values := [.basicLit .INT "1"] },
                    Names := ["A"],
                    Values := [{ Value := "1", typ := "int" }] }] } : ConstGroup).Consts ≠ [] :=
  c8_const_group_filtering.2.2 { filters := [.filterUnexported .Exclude] }
    { name := "mypackage",
      consts := [{ specs := [some { names := ["A"], values := [.basicLit .INT "1"] },
                             some { names := ["b"], values := [.basicLit .INT "2"] }] }] }
    { Name := "mypackage",
      Consts := [{ Consts := [{ valSpec := { names := ["A"],
                                             values := [.basicLit .INT "1"] },
                                Names := ["A"],
                                Values := [{ Value := "1", typ := "int" }] }] }] }
    rfl _ (List.mem_singleton.mpr rfl)

lemma parseConsts_error_of_mem (p : Parser) (l : List DocValue) :
    ∀ (pkg : Package) (dv : DocValue) (e : String), dv ∈ l →
      p.parseConst dv = .error e →
      ∃ e', p.parseConsts pkg l = .error e' := by
  induction l with
  | nil =>
      intro pkg dv e hmem
      cases hmem
  | cons dv0 rest ih =>
      intro pkg dv e hmem herr
      cases hc : p.parseConst dv0 with
      | error e0 =>
          exact ⟨e0, by simp [Parser.parseConsts, hc, Bind.bind, Except.bind]⟩
      | ok cg =>
          rcases List.mem_cons.mp hmem with rfl | hmem'
          · rw [hc] at herr
            exact absurd herr (by simp)
          · obtain ⟨e', he'⟩ := ih
              (if cg.Consts.length = 0 then pkg
                else { pkg with Consts := pkg.Consts ++ [cg] }) dv e hmem' herr
            exact ⟨e', by simp [Parser.parseConsts, hc, Bind.bind, Except.bind, he']⟩

/-- C4: when Parser.parseConst fails on some constant group of the input
(for example on an unrecognized constant-value AST shape, modelled as the Go
panic carrying an error value), Parser.Package aborts extraction for the
whole package with an error and never returns a Package value. -/
theorem c4_fatal_const_abort (p : Parser) (d : DocPackage) (dv : DocValue)
    (e : String) (hmem : dv ∈ d.consts) (herr : p.parseConst dv = .error e) :
    (∃ e', p.Package d = .error e') ∧ ∀ pkg, p.Package d ≠ .ok pkg := by
  obtain ⟨e', he'⟩ := parseConsts_error_of_mem p d.consts
    { Name := d.name, Doc := p.mkDoc d.doc } dv e hmem herr
  have hpkg : p.Package d = .error e' := by
    simp [Parser.Package, Bind.bind, Except.bind, he']
  refine ⟨⟨e', hpkg⟩, ?_⟩
  intro pkg hok
  rw [hpkg] at hok
  cases hok

/-- C4 witness: a const declaration whose value has an unrecognized AST shape
makes the whole extraction return an error. -/
theorem c4_fatal_const_witness :
    (∃ e', Parser.Package {}
      { name := "mypackage",
        consts := [{ specs := [some { names := ["C"],
                                      values := [.otherE "ast.BinaryExpr"] }] }] } =
      .error e') :=
  (c4_fatal_const_abort {}
    { name := "mypackage",
      consts := [{ specs := [some { names := ["C"],
                                    values := [.otherE "ast.BinaryExpr"] }] }] }
    { specs := [some { names := ["C"], values := [.otherE "ast.BinaryExpr"] }] }
    "unsupported const value type ast.BinaryExpr"
    (List.mem_singleton.mpr rfl) rfl).1

/-- C1 counterexample: a struct type excluded by a kind filter with two
methods that pass the method filter yields a Package with zero TypeDefs and
ZERO Funcs — the methods are dropped together with the excluded TypeDef, not
promoted to the package's free-function list as the claim states. -/
theorem c1_promotion_counterexample :
    Parser.Package { filters := [.filterSymbolTypes .Exclude [.SymbolStructType]] }
      { name := "mypackage",
        types := [{ name := "MyStruct", specs := [some (.structS (some []))],
                    methods := [{ name := "M1",
                                  recv? := some [{ names := ["s"], typ := "MyStruct" }] },
                                { name := "M2",
                                  recv? := some [{ names := ["s"], typ := "MyStruct" }] }] }] } =
      .ok { Name := "mypackage" } := rfl

/-- C1 amended: when a type's TypeDef is excluded by the filter chain, its
associated receiver-less functions and consts are still extracted into the
package (processed before the TypeDef's own verdict), but its methods are
never parsed and nothing is appended to the package's type or function lists
for them: processing the type is exactly the extraction of its associated
consts and functions. -/
theorem c1_promotion_amended (p : Parser) (pkg : Package) (t : DocType)
    (ts : TypeSpecShape) (td : TypeDef)
    (htok : t.isTypeTok = true)
    (hspecs : t.specs = [some ts])
    (hbuild : p.buildTypeDef { Name := t.name, Doc := p.mkDoc t.doc } ts = .ok (some td))
    (hexcl : p.includeSymbolE td.toSymbol = .ok false) :
    p.parseTypes pkg [t] =
      p.parseConsts pkg t.consts >>= fun pkg1 => p.parseFuncs pkg1 t.funcs := by
  simp only [Parser.parseTypes, htok, if_true, hspecs]
  cases hc : p.parseConsts pkg t.consts with
  | error e =>
      simp [Parser.parseTypeSpecs, Bind.bind, Except.bind, hc]
  | ok pkg1 =>
      cases hf : p.parseFuncs pkg1 t.funcs with
      | error e =>
          simp [Parser.parseTypeSpecs, Bind.bind, Except.bind, hc, hf]
      | ok pkg2 =>
          simp [Parser.parseTypeSpecs, Bind.bind, Except.bind, hc, hf, hbuild,
            hexcl, Parser.parseTypes]

/-- C1 witness: the amended statement applied to the counterexample's
kind-excluded struct type with two methods. -/
theorem c1_promotion_witness :
    Parser.parseTypes { filters := [.filterSymbolTypes .Exclude [.SymbolStructType]] } {}
      [{ name := "MyStruct", specs := [some (.structS (some []))],
         methods := [{ name := "M1",
                       recv? := some [{ names := ["s"], typ := "MyStruct" }] },
                     { name := "M2",
                       recv? := some [{ names := ["s"], typ := "MyStruct" }] }] }] =
      (Parser.parseConsts { filters := [.filterSymbolTypes .Exclude [.SymbolStructType]] }
          {} [] >>=
        fun pkg1 => Parser.parseFuncs
          { filters := [.filterSymbolTypes .Exclude [.SymbolStructType]] } pkg1 []) :=
  c1_promotion_amended _ _ _ (.structS (some []))
    { Name := "MyStruct", typ := "struct" } rfl rfl rfl rfl

end Pkgdmp



